import Mathlib

/-!
Shallow embedding of the dataset materialization and split pipeline of
`src/data/dataset.py` (torch-classification repository), together with
theorems checking the specification's claims about it.

Modelling conventions:
  - Python exceptions are an explicit error type `PyErr`; fallible code
    returns `Except PyErr _`.
  - `val_size` (a Python float used only through `>` comparison and
    `int(len * val_size)`) is modelled as a rational number; Python's
    `int()` truncation toward zero is `pyInt`.
  - `torch.utils.data.dataset.random_split(dataset, lengths)` is called
    without a generator argument, so it draws `randperm(sum(lengths))`
    from torch's global default generator.  The embedding makes that
    ambient randomness explicit: the permutation consumed from the global
    generator is passed as the argument `perm`.
  - Python list slicing `l[a:b]` (used by random_split on the permuted
    index list) is `pySlice`, including negative-bound normalisation.
  - A `torch.utils.data.DataLoader` is modelled by the configuration it
    is constructed with (dataset, batch size, shuffle flag, worker count,
    pin-memory flag); an epoch pass over a loader is `epochLabels`.
-/

/-- Python exception values raised by the embedded code. -/
inductive PyErr where
  | valueError (msg : String)
  | typeError (msg : String)
  deriving DecidableEq

deriving instance DecidableEq for Except

/-- Python's `int()` applied to a rational: truncation toward zero. -/
def pyInt (q : ℚ) : ℤ := if q < 0 then -⌊-q⌋ else ⌊q⌋

/-- Normalisation of one Python slice bound against a list of length `n`:
a negative bound counts from the end, and the result is clamped to `[0, n]`. -/
def pyBound (n : ℕ) (i : ℤ) : ℤ :=
  if i < 0 then max ((n : ℤ) + i) 0 else min i n

/-- Python list slicing `l[a:b]` with step 1. -/
def pySlice (l : List α) (a b : ℤ) : List α :=
  (l.drop (pyBound l.length a).toNat).take
    ((pyBound l.length b).toNat - (pyBound l.length a).toNat)

/-- `torch.utils.data.dataset.random_split(dataset, [len1, len2])` as called at
`dataset.py:135` and `dataset.py:163`: it raises `ValueError` when the lengths
do not sum to the dataset length, and otherwise splits a permutation of the
dataset's indices (drawn from the global default generator, passed here as
`perm`) into the slices `indices[offset - length : offset]` for the running
offsets of the two lengths. -/
def random_split (datasetLen : ℕ) (len1 len2 : ℤ) (perm : List ℕ) :
    Except PyErr (List ℕ × List ℕ) :=
  if len1 + len2 ≠ (datasetLen : ℤ) then
    .error (.valueError "Sum of input lengths does not equal the length of the input dataset!")
  else
    .ok (pySlice perm (len1 - len1) len1,
         pySlice perm (len1 + len2 - len2) (len1 + len2))

/-! ## Archive Reader (`CIFAR100._load_data`, `CIFAR100.__getitem__`) -/

/-- Split a list into consecutive chunks of `k` elements (the final chunk may
be shorter); this is how `numpy.reshape` groups a flat row-major buffer. -/
def chunkList (k : ℕ) (l : List α) : List (List α) :=
  match l with
  | [] => []
  | a :: rest =>
    if k = 0 then []
    else (a :: rest).take k :: chunkList k ((a :: rest).drop k)
termination_by l.length
decreasing_by
  rename_i hk
  simp only [List.length_drop, List.length_cons]
  omega

/-- `numpy.transpose(img, (1, 2, 0))` on one image of shape (3, 32, 32):
the channel-first image becomes channel-last, with
`result[h][w][c] = img[c][h][w]`. -/
def transposeHWC (img : List (List (List ℕ))) : List (List (List ℕ)) :=
  (List.range 32).map fun h =>
    (List.range 32).map fun w =>
      img.map fun ch => (ch.getD h []).getD w 0

/-- `np.vstack(data).reshape(-1, 3, 32, 32)` followed by
`data.transpose((0, 2, 3, 1))` (`dataset.py:90-91`): the flat byte buffer is
cut into images of 3072 bytes, each image into 3 channels of 1024 bytes, each
channel into 32 rows of 32 bytes, and each image is then transposed from
channel-first to channel-last order. -/
def decodeImages (buffer : List ℕ) : List (List (List (List ℕ))) :=
  (chunkList 3072 buffer).map fun imgBytes =>
    transposeHWC ((chunkList 1024 imgBytes).map (chunkList 32))

/-- The two fields `_load_data` reads from an unpickled archive entry:
`entry["data"]` (a flat byte buffer) and `entry["fine_labels"]`. -/
structure ArchiveEntry where
  data : List ℕ
  fineLabels : List ℤ

/-- `CIFAR100._load_data` after unpickling (`dataset.py:87-93`): reshape the
buffer into (N, 3, 32, 32) — `numpy` raises when the buffer length is not a
multiple of 3072 — transpose each image to channel-last, and return the data
together with the label list.  No comparison between the image count and the
label count is performed. -/
def load_data (entry : ArchiveEntry) : Except PyErr (List (List (List (List ℕ))) × List ℤ) :=
  if entry.data.length % 3072 ≠ 0 then
    .error (.valueError "cannot reshape array into shape (-1,3,32,32)")
  else
    .ok (decodeImages entry.data, entry.fineLabels)

/-- `PIL.Image` value produced by `Image.fromarray` from a channel-last pixel
array. -/
structure PILImage where
  arr : List (List (List ℕ))
  deriving DecidableEq

/-- `Image.fromarray` (`dataset.py:58`): converts the stored pixel array into
the framework's image representation. -/
def Image.fromarray (a : List (List (List ℕ))) : PILImage := ⟨a⟩

/-- The `CIFAR100` dataset object: `data`/`labels` are the pair loaded by
`_load_data` for the selected split (`train_data`/`train_labels` when
`train` is true, `test_data`/`test_labels` otherwise — `__getitem__` treats
both identically), and `transform` is the optional per-access transform. -/
structure CIFAR100 where
  train : Bool
  data : List (List (List (List ℕ)))
  labels : List ℤ
  transform : Option (PILImage → PILImage)

/-- `CIFAR100.__getitem__` (`dataset.py:46-63`): read the indexed image and
label, convert the image with `Image.fromarray`, apply the transform to the
image when one is supplied, and return the (image, label) pair. -/
def CIFAR100.getItem (ds : CIFAR100) (index : ℕ) : PILImage × ℤ :=
  let img := ds.data.getD index []
  let target := ds.labels.getD index 0
  let pil := Image.fromarray img
  match ds.transform with
  | some t => (t pil, target)
  | none => (pil, target)

/-- `CIFAR100.__len__` (`dataset.py:65-69`): the length of the loaded data
array (the label list is not consulted). -/
def CIFAR100.len (ds : CIFAR100) : ℕ := ds.data.length

/-! ## Split & Loader Builder -/

/-- `get_imagefolder_dataset` (`dataset.py:132-139`), restricted to the split
decision it makes: `P` is the size of the train pool scanned from disk and
`perm` the permutation the global generator supplies to `random_split`.
When `val_size > 0.0` it requests sizes
`int(len(train_dataset) * val_size)` (validation) and the remainder (train);
otherwise the validation dataset is `None` and the train pool is returned
whole (modelled as the identity index view `List.range P`). -/
def get_imagefolder_dataset (P : ℕ) (val_size : ℚ) (perm : List ℕ) :
    Except PyErr (List ℕ × Option (List ℕ)) :=
  if 0 < val_size then
    let vc : ℤ := pyInt ((P : ℚ) * val_size)
    let tc : ℤ := (P : ℤ) - vc
    (random_split P tc vc perm).map fun p => (p.1, some p.2)
  else
    .ok (List.range P, none)

/-- `get_cifar100_dataset` (`dataset.py:160-167`), restricted to the split
decision it makes (identical lines to `get_imagefolder_dataset`): `P` is
`len(train_dataset)` for the materialized CIFAR100 train split and `perm` the
permutation the global generator supplies to `random_split`. -/
def get_cifar100_dataset (P : ℕ) (val_size : ℚ) (perm : List ℕ) :
    Except PyErr (List ℕ × Option (List ℕ)) :=
  if 0 < val_size then
    let vc : ℤ := pyInt ((P : ℚ) * val_size)
    let tc : ℤ := (P : ℤ) - vc
    (random_split P tc vc perm).map fun p => (p.1, some p.2)
  else
    .ok (List.range P, none)

/-- A `torch.utils.data.DataLoader`, modelled by its construction
configuration. -/
structure DataLoader (α : Type) where
  dataset : α
  batchSize : ℕ
  shuffle : Bool
  numWorkers : ℕ
  pinMemory : Bool
  deriving DecidableEq

/-- The two return shapes of `get_cifar100_loaders`: a triple of loaders, or
the triple together with `steps_per_epoch` when `return_steps` is true. -/
inductive LoadersRet where
  | three (train : DataLoader (List ℕ)) (val : DataLoader (Option (List ℕ)))
      (test : DataLoader (List ℤ))
  | four (train : DataLoader (List ℕ)) (val : DataLoader (Option (List ℕ)))
      (test : DataLoader (List ℤ)) (steps : ℕ)
  deriving DecidableEq

/-- The test loader of either return shape. -/
def LoadersRet.testLoader : LoadersRet → DataLoader (List ℤ)
  | .three _ _ te => te
  | .four _ _ te _ => te

/-- The validation loader of either return shape. -/
def LoadersRet.valLoader : LoadersRet → DataLoader (Option (List ℕ))
  | .three _ va _ => va
  | .four _ va _ _ => va

/-- The train loader of either return shape. -/
def LoadersRet.trainLoader : LoadersRet → DataLoader (List ℕ)
  | .three tr _ _ => tr
  | .four tr _ _ _ => tr

/-- `get_cifar100_loaders` (`dataset.py:170-236`).  `arch` is the result of
materializing the datasets from disk for the selected backend: the train-pool
size together with the test set's label sequence, or the error the disk read
would raise; it is only consulted inside a recognised backend branch.  The
train subset (an index list over the train pool), the optional validation
subset, and the test labels are wrapped in three `DataLoader`s: train and
validation with the caller's `shuffle` flag, test with `shuffle=False`.  When
`return_steps` is true, `steps_per_epoch = len(train_dataset) // batch_size`
is computed from the (possibly split) train dataset variable and returned as
a fourth component. -/
def get_cifar100_loaders (arch : Except PyErr (ℕ × List ℤ))
    (batch_size num_workers : ℕ) (val_size : ℚ) (shuffle : Bool)
    (dataset_type : String) (return_steps : Bool) (perm : List ℕ) :
    Except PyErr LoadersRet :=
  (if dataset_type = "default" then
    arch.bind fun a => (get_cifar100_dataset a.1 val_size perm).map fun s => (s, a.2)
  else if dataset_type = "imagefolder" then
    arch.bind fun a => (get_imagefolder_dataset a.1 val_size perm).map fun s => (s, a.2)
  else
    .error (.valueError "Invalid dataset type. Choose from [default, imagefolder].")
  ).bind fun x =>
    let train_dataset := x.1.1
    let val_dataset := x.1.2
    let testLabels := x.2
    let train_loader : DataLoader (List ℕ) :=
      ⟨train_dataset, batch_size, shuffle, num_workers, true⟩
    let val_loader : DataLoader (Option (List ℕ)) :=
      ⟨val_dataset, batch_size, shuffle, num_workers, true⟩
    let test_loader : DataLoader (List ℤ) :=
      ⟨testLabels, batch_size, false, num_workers, true⟩
    if return_steps then
      .ok (.four train_loader val_loader test_loader (train_dataset.length / batch_size))
    else
      .ok (.three train_loader val_loader test_loader)

/-- Reorder a label list by a permutation of its indices (what a shuffling
sampler does to the iteration order). -/
def permuteBy (g : List ℕ) (l : List ℤ) : List ℤ := g.map fun i => l.getD i 0

/-- The label order of one full pass over a loader: a shuffling loader draws a
fresh permutation `g` from the generator and visits the dataset in that order;
an unshuffled loader visits it in natural order, independent of `g`. -/
def epochLabels (dl : DataLoader (List ℤ)) (g : List ℕ) : List ℤ :=
  if dl.shuffle then permuteBy g dl.dataset else dl.dataset

/-- Pixel access into a decoded image list: the byte at channel-last position
(`h`, `w`, `c`) of the `i`-th image. -/
def datasetPixel (imgs : List (List (List (List ℕ)))) (i h w c : ℕ) : ℕ :=
  (((imgs.getD i []).getD h []).getD w []).getD c 0

/-! ## Helper lemmas -/

lemma pyInt_eq_floor (q : ℚ) (h : 0 ≤ q) : pyInt q = ⌊q⌋ := by
  unfold pyInt
  rw [if_neg (not_lt.2 h)]

lemma except_bind_ok {α β : Type} {e : Except PyErr α} {f : α → Except PyErr β} {b : β}
    (h : e.bind f = .ok b) : ∃ a, e = .ok a ∧ f a = .ok b := by
  cases e with
  | error err => exact absurd h (by simp [Except.bind])
  | ok a => exact ⟨a, rfl, by simpa [Except.bind] using h⟩

lemma pyBound_of_nonneg (n : ℕ) (i : ℤ) (h0 : 0 ≤ i) (hn : i ≤ n) :
    pyBound n i = i := by
  unfold pyBound
  rw [if_neg (not_lt.2 h0), min_eq_left hn]

lemma pySlice_eq {α : Type} (l : List α) (a b : ℤ) (ha : 0 ≤ a) (hb : 0 ≤ b)
    (han : a ≤ l.length) (hbn : b ≤ l.length) :
    pySlice l a b = (l.drop a.toNat).take (b.toNat - a.toNat) := by
  unfold pySlice
  rw [pyBound_of_nonneg _ _ ha han, pyBound_of_nonneg _ _ hb hbn]

lemma chunkList_nil {α : Type} (k : ℕ) : chunkList k ([] : List α) = [] := by
  unfold chunkList
  rfl

lemma chunkList_of_ne_nil {α : Type} (k : ℕ) (hk : 0 < k) (l : List α) (hl : l ≠ []) :
    chunkList k l = l.take k :: chunkList k (l.drop k) := by
  cases l with
  | nil => exact absurd rfl hl
  | cons a rest =>
    rw [chunkList]
    rw [if_neg (Nat.pos_iff_ne_zero.mp hk)]

lemma chunkList_length {α : Type} (k : ℕ) (hk : 0 < k) :
    ∀ (n : ℕ) (l : List α), l.length = n * k → (chunkList k l).length = n := by
  intro n
  induction n with
  | zero =>
    intro l hlen
    have : l = [] := List.length_eq_zero.mp (by simpa using hlen)
    rw [this, chunkList_nil]
    rfl
  | succ m ih =>
    intro l hlen
    have hmul : (m + 1) * k = m * k + k := by ring
    have hne : l ≠ [] := by
      intro h
      rw [h] at hlen
      simp at hlen
      omega
    rw [chunkList_of_ne_nil k hk l hne]
    have hdrop : (l.drop k).length = m * k := by
      rw [List.length_drop, hlen]
      omega
    simp only [List.length_cons, ih (l.drop k) hdrop]

lemma chunkList_getD {α : Type} (k : ℕ) (hk : 0 < k) :
    ∀ (i n : ℕ) (l : List α), l.length = n * k → i < n →
      (chunkList k l).getD i [] = (l.drop (i * k)).take k := by
  intro i
  induction i with
  | zero =>
    intro n l hlen hi
    have hne : l ≠ [] := by
      intro h
      rw [h] at hlen
      simp at hlen
      rcases hlen with h1 | h1 <;> omega
    rw [chunkList_of_ne_nil k hk l hne]
    simp
  | succ j ih =>
    intro n l hlen hi
    obtain ⟨p, rfl⟩ : ∃ p, n = p + 1 := ⟨n - 1, by omega⟩
    have hmul : (p + 1) * k = p * k + k := by ring
    have hne : l ≠ [] := by
      intro h
      rw [h] at hlen
      simp at hlen
      omega
    rw [chunkList_of_ne_nil k hk l hne]
    simp only [List.getD_cons_succ]
    have hdrop : (l.drop k).length = p * k := by
      rw [List.length_drop, hlen]
      omega
    rw [ih p (l.drop k) hdrop (by omega)]
    rw [List.drop_drop]
    congr 1
    ring_nf

lemma getD_map_lt {α β : Type} (f : α → β) (l : List α) (i : ℕ) (h : i < l.length)
    (d : β) (d' : α) : (l.map f).getD i d = f (l.getD i d') := by
  rw [List.getD_eq_getElem (l.map f) d (by simpa using h), List.getD_eq_getElem l d' h,
    List.getElem_map]

lemma getD_take_drop {α : Type} (l : List α) (a k j : ℕ) (hj : j < k)
    (hk : a + k ≤ l.length) (d : α) :
    ((l.drop a).take k).getD j d = l.getD (a + j) d := by
  have h1 : j < ((l.drop a).take k).length := by
    simp only [List.length_take, List.length_drop]
    omega
  have h2 : a + j < l.length := by omega
  rw [List.getD_eq_getElem _ d h1, List.getD_eq_getElem l d h2]
  rw [List.getElem_take _]
  rw [List.getElem_drop _]

lemma floor_mul_le (P : ℕ) (v : ℚ) (hv1 : v ≤ 1) :
    ⌊(P : ℚ) * v⌋ ≤ (P : ℤ) := by
  have h1 : (P : ℚ) * v ≤ (P : ℚ) * 1 := mul_le_mul_of_nonneg_left hv1 (by positivity)
  rw [mul_one] at h1
  calc ⌊(P : ℚ) * v⌋ ≤ ⌊(P : ℚ)⌋ := Int.floor_le_floor h1
  _ = (P : ℤ) := Int.floor_natCast P

lemma imagefolder_split_eq_cifar_split : @get_imagefolder_dataset = @get_cifar100_dataset :=
  rfl

lemma split_core_pos (P : ℕ) (v : ℚ) (perm : List ℕ)
    (hv0 : 0 < v) (hv1 : v ≤ 1) (hlen : perm.length = P) :
    get_cifar100_dataset P v perm =
      .ok (perm.take ((P : ℤ) - ⌊(P : ℚ) * v⌋).toNat,
           some (perm.drop ((P : ℤ) - ⌊(P : ℚ) * v⌋).toNat)) := by
  have hq0 : (0 : ℚ) ≤ (P : ℚ) * v := mul_nonneg (by positivity) hv0.le
  have h0 : (0 : ℤ) ≤ ⌊(P : ℚ) * v⌋ := Int.floor_nonneg.mpr hq0
  have hP : ⌊(P : ℚ) * v⌋ ≤ (P : ℤ) := floor_mul_le P v hv1
  have hlenz : (perm.length : ℤ) = (P : ℤ) := by rw [hlen]
  unfold get_cifar100_dataset random_split
  rw [if_pos hv0, pyInt_eq_floor _ hq0]
  dsimp only
  rw [if_neg (by omega)]
  have e1 : pySlice perm ((P : ℤ) - ⌊(P : ℚ) * v⌋ - ((P : ℤ) - ⌊(P : ℚ) * v⌋))
      ((P : ℤ) - ⌊(P : ℚ) * v⌋) = perm.take ((P : ℤ) - ⌊(P : ℚ) * v⌋).toNat := by
    rw [sub_self]
    rw [pySlice_eq perm 0 _ le_rfl (by omega) (by omega) (by omega)]
    simp
  have e2 : pySlice perm ((P : ℤ) - ⌊(P : ℚ) * v⌋ + ⌊(P : ℚ) * v⌋ - ⌊(P : ℚ) * v⌋)
      ((P : ℤ) - ⌊(P : ℚ) * v⌋ + ⌊(P : ℚ) * v⌋) =
      perm.drop ((P : ℤ) - ⌊(P : ℚ) * v⌋).toNat := by
    have hsum : (P : ℤ) - ⌊(P : ℚ) * v⌋ + ⌊(P : ℚ) * v⌋ = (P : ℤ) := by omega
    rw [hsum]
    rw [pySlice_eq perm _ _ (by omega) (by omega) (by omega) (by omega)]
    apply List.take_of_length_le
    rw [List.length_drop, hlen]
    omega
  rw [e1, e2]
  rfl

/-! ## Claims about the split (C1, C3, C9) -/

/-- C1: for every train pool of size `P` and every `val_size` `v` with
`0 < v < 1`, the split produces a validation subset of size exactly
`⌊P * v⌋` and a train subset of size exactly `P - ⌊P * v⌋`, and the two
index sets are disjoint and together cover every index of the pool. -/
theorem split_partition_spec (P : ℕ) (v : ℚ) (perm : List ℕ)
    (hv0 : 0 < v) (hv1 : v < 1) (hperm : List.Perm perm (List.range P)) :
    ∃ t va, get_cifar100_dataset P v perm = .ok (t, some va) ∧
      va.length = (⌊(P : ℚ) * v⌋).toNat ∧
      t.length = P - (⌊(P : ℚ) * v⌋).toNat ∧
      t.length + va.length = P ∧
      t.Disjoint va ∧
      (∀ i, i ∈ t ∨ i ∈ va ↔ i < P) := by
  have hlen : perm.length = P := by simpa using hperm.length_eq
  have hq0 : (0 : ℚ) ≤ (P : ℚ) * v := mul_nonneg (by positivity) hv0.le
  have h0 : (0 : ℤ) ≤ ⌊(P : ℚ) * v⌋ := Int.floor_nonneg.mpr hq0
  have hP : ⌊(P : ℚ) * v⌋ ≤ (P : ℤ) := floor_mul_le P v hv1.le
  refine ⟨_, _, split_core_pos P v perm hv0 hv1.le hlen, ?_, ?_, ?_, ?_, ?_⟩
  · rw [List.length_drop, hlen]
    omega
  · rw [List.length_take, hlen]
    omega
  · rw [List.length_take, List.length_drop, hlen]
    omega
  · have hnd : perm.Nodup := hperm.nodup_iff.mpr (List.nodup_range P)
    have happ : (perm.take ((P : ℤ) - ⌊(P : ℚ) * v⌋).toNat ++
        perm.drop ((P : ℤ) - ⌊(P : ℚ) * v⌋).toNat).Nodup := by
      rw [List.take_append_drop]
      exact hnd
    exact (List.nodup_append.mp happ).2.2
  · intro i
    rw [← List.mem_append, List.take_append_drop, hperm.mem_iff, List.mem_range]

/-- Witness for C1 at `P = 10`, `v = 1/5`, a concrete ambient permutation. -/
theorem split_partition_spec_witness :
    (0 : ℚ) < 1/5 ∧ (1/5 : ℚ) < 1 ∧
      List.Perm [3, 1, 4, 0, 9, 5, 8, 2, 7, 6] (List.range 10) ∧
    (∃ t va, get_cifar100_dataset 10 (1/5) [3, 1, 4, 0, 9, 5, 8, 2, 7, 6] = .ok (t, some va) ∧
      va.length = (⌊((10 : ℕ) : ℚ) * (1/5)⌋).toNat ∧
      t.length = 10 - (⌊((10 : ℕ) : ℚ) * (1/5)⌋).toNat ∧
      t.length + va.length = 10 ∧
      t.Disjoint va ∧
      (∀ i, i ∈ t ∨ i ∈ va ↔ i < 10)) :=
  ⟨by norm_num, by norm_num, by decide,
    split_partition_spec 10 (1/5) _ (by norm_num) (by norm_num) (by decide)⟩

/-- C3 counterexample: the split does depend on the ambient global generator
state.  For the same pool (size 2) and the same `val_size = 1/2`, two valid
states of the global generator (yielding the permutations `[0, 1]` and
`[1, 0]`) produce different splits, so the partition is not independent of
ambient random state, and no explicitly passed seed determines it. -/
theorem split_differs_across_ambient_states :
    List.Perm [0, 1] (List.range 2) ∧ List.Perm [1, 0] (List.range 2) ∧
    get_cifar100_dataset 2 (1/2) [0, 1] ≠ get_cifar100_dataset 2 (1/2) [1, 0] := by
  refine ⟨by decide, by decide, ?_⟩
  have h1 := split_core_pos 2 (1/2) [0, 1] (by norm_num) (by norm_num) rfl
  have h2 := split_core_pos 2 (1/2) [1, 0] (by norm_num) (by norm_num) rfl
  have hm : (((2 : ℕ) : ℤ) - ⌊((2 : ℕ) : ℚ) * (1/2)⌋).toNat = 1 := by norm_num
  rw [hm] at h1 h2
  rw [h1, h2]
  simp

/-- C3 amended: the split function takes no seed; it is a deterministic
function of the pool size, the `val_size`, and the permutation the ambient
global generator supplies — the train subset is the first
`P - ⌊P * v⌋` entries of that ambient permutation and the validation subset
the rest.  Two runs agree exactly when the ambient generator state agrees. -/
theorem split_deterministic_given_ambient_perm (P : ℕ) (v : ℚ) (perm : List ℕ)
    (hv0 : 0 < v) (hv1 : v < 1) (hlen : perm.length = P) :
    get_cifar100_dataset P v perm =
      .ok (perm.take ((P : ℤ) - ⌊(P : ℚ) * v⌋).toNat,
           some (perm.drop ((P : ℤ) - ⌊(P : ℚ) * v⌋).toNat)) :=
  split_core_pos P v perm hv0 hv1.le hlen

/-- Witness for the amended C3 at `P = 4`, `v = 1/4`. -/
theorem split_deterministic_given_ambient_perm_witness :
    (0 : ℚ) < 1/4 ∧ (1/4 : ℚ) < 1 ∧ ([2, 0, 3, 1] : List ℕ).length = 4 ∧
    get_cifar100_dataset 4 (1/4) [2, 0, 3, 1] =
      .ok (([2, 0, 3, 1] : List ℕ).take (((4 : ℕ) : ℤ) - ⌊((4 : ℕ) : ℚ) * (1/4)⌋).toNat,
           some (([2, 0, 3, 1] : List ℕ).drop (((4 : ℕ) : ℤ) - ⌊((4 : ℕ) : ℚ) * (1/4)⌋).toNat)) :=
  ⟨by norm_num, by norm_num, rfl,
    split_deterministic_given_ambient_perm 4 (1/4) [2, 0, 3, 1] (by norm_num) (by norm_num) rfl⟩

/-- C9 counterexample: a `val_size` outside `[0, 1]` is not rejected.  At
`val_size = -1/2` (and a pool of size 4) the builder succeeds, returning the
whole pool and an absent validation set instead of failing with
`InvalidArgument`. -/
theorem val_size_out_of_range_accepted :
    get_cifar100_dataset 4 (-(1/2)) [0, 1, 2, 3] = .ok (List.range 4, none) := by
  unfold get_cifar100_dataset
  rw [if_neg (by norm_num)]

/-- C9 amended: the builder performs no range validation of `val_size` at all:
for every rational `val_size` — inside or outside `[0, 1]` — the split
construction succeeds.  A non-positive `val_size` takes the no-validation
branch, and a positive one always passes `random_split`'s only check, because
the two requested lengths sum to the pool size by construction. -/
theorem no_val_size_validation (P : ℕ) (v : ℚ) (perm : List ℕ) :
    ∃ t va, get_cifar100_dataset P v perm = .ok (t, va) := by
  by_cases hv : 0 < v
  · unfold get_cifar100_dataset random_split
    rw [if_pos hv]
    dsimp only
    rw [if_neg (by omega)]
    exact ⟨_, _, rfl⟩
  · unfold get_cifar100_dataset
    rw [if_neg hv]
    exact ⟨_, _, rfl⟩

/-! ## Claims about the loader builder (C2, C4, C5, C8) -/

/-- C4: for every dataset-backend selector other than `"default"` and
`"imagefolder"`, the loader builder fails with the `InvalidArgument`
(`ValueError`) message, and it does so before any disk access: the result is
the same error whatever the disk read (`arch`, `arch2`) would have produced,
so no dataset construction is attempted. -/
theorem invalid_backend_rejected_before_disk (arch arch2 : Except PyErr (ℕ × List ℤ))
    (batch nw : ℕ) (v : ℚ) (sh : Bool) (dt : String) (rs : Bool) (perm : List ℕ)
    (h1 : dt ≠ "default") (h2 : dt ≠ "imagefolder") :
    get_cifar100_loaders arch batch nw v sh dt rs perm =
      .error (.valueError "Invalid dataset type. Choose from [default, imagefolder].") ∧
    get_cifar100_loaders arch batch nw v sh dt rs perm =
      get_cifar100_loaders arch2 batch nw v sh dt rs perm := by
  have e : ∀ a : Except PyErr (ℕ × List ℤ),
      get_cifar100_loaders a batch nw v sh dt rs perm =
        .error (.valueError "Invalid dataset type. Choose from [default, imagefolder].") := by
    intro a
    unfold get_cifar100_loaders
    rw [if_neg h1, if_neg h2]
    rfl
  exact ⟨e arch, (e arch).trans (e arch2).symm⟩

/-- Witness for C4 at the selector `"bogus"`, with a readable disk on one side
and an unreadable one on the other. -/
theorem invalid_backend_rejected_before_disk_witness :
    ("bogus" : String) ≠ "default" ∧ ("bogus" : String) ≠ "imagefolder" ∧
    (get_cifar100_loaders (.ok (1, [0])) 2 0 (1/10) true "bogus" false [0] =
      .error (.valueError "Invalid dataset type. Choose from [default, imagefolder].") ∧
    get_cifar100_loaders (.ok (1, [0])) 2 0 (1/10) true "bogus" false [0] =
      get_cifar100_loaders (.error (.typeError "unreadable disk")) 2 0 (1/10) true "bogus"
        false [0]) :=
  ⟨by decide, by decide,
    invalid_backend_rejected_before_disk (.ok (1, [0])) (.error (.typeError "unreadable disk"))
      2 0 (1/10) true "bogus" false [0] (by decide) (by decide)⟩

/-- C5: the test loader is constructed with `shuffle=False` regardless of the
caller-supplied shuffle flag, so any two full passes over it yield the test
labels in the identical order. -/
theorem test_loader_unshuffled (arch : Except PyErr (ℕ × List ℤ)) (batch nw : ℕ)
    (v : ℚ) (sh : Bool) (dt : String) (rs : Bool) (perm : List ℕ) (r : LoadersRet)
    (h : get_cifar100_loaders arch batch nw v sh dt rs perm = .ok r) :
    r.testLoader.shuffle = false ∧
    ∀ g1 g2, epochLabels r.testLoader g1 = epochLabels r.testLoader g2 := by
  unfold get_cifar100_loaders at h
  obtain ⟨x, hx, hk⟩ := except_bind_ok h
  dsimp only at hk
  have hte : r.testLoader.shuffle = false := by
    cases rs with
    | false =>
      rw [if_neg (by simp)] at hk
      injection hk with h4
      rw [← h4]
      rfl
    | true =>
      rw [if_pos rfl] at hk
      injection hk with h4
      rw [← h4]
      rfl
  refine ⟨hte, fun g1 g2 => ?_⟩
  unfold epochLabels
  rw [hte]
  simp

/-- Witness for C5: a concrete builder call with the caller's shuffle flag set
to `true` still yields an unshuffled test loader. -/
theorem test_loader_unshuffled_witness :
    get_cifar100_loaders (.ok (2, [3, 4])) 1 0 0 true "default" false [0, 1] =
      .ok (.three ⟨[0, 1], 1, true, 0, true⟩ ⟨none, 1, true, 0, true⟩
        ⟨[3, 4], 1, false, 0, true⟩) ∧
    ((LoadersRet.three ⟨[0, 1], 1, true, 0, true⟩ ⟨none, 1, true, 0, true⟩
        ⟨[3, 4], 1, false, 0, true⟩).testLoader.shuffle = false ∧
    ∀ g1 g2, epochLabels (LoadersRet.three ⟨[0, 1], 1, true, 0, true⟩
        ⟨none, 1, true, 0, true⟩ ⟨[3, 4], 1, false, 0, true⟩).testLoader g1 =
      epochLabels (LoadersRet.three ⟨[0, 1], 1, true, 0, true⟩
        ⟨none, 1, true, 0, true⟩ ⟨[3, 4], 1, false, 0, true⟩).testLoader g2) :=
  ⟨by decide, test_loader_unshuffled (.ok (2, [3, 4])) 1 0 0 true "default" false [0, 1] _
    (by decide)⟩

/-- C2 counterexample: at `val_size = 0` the loader builder does not return
only two iteration handles — it constructs and returns a third validation
`DataLoader`, wrapping `None` as its dataset, rather than an absent handle. -/
theorem val_loader_built_at_val_size_zero :
    get_cifar100_loaders (.ok (4, [1, 2])) 2 0 0 false "default" false [0, 1, 2, 3] =
      .ok (.three ⟨[0, 1, 2, 3], 2, false, 0, true⟩ ⟨none, 2, false, 0, true⟩
        ⟨[1, 2], 2, false, 0, true⟩) := by
  decide

/-- C2 amended: at `val_size = 0` the validation output of the dataset builder
is an explicit absence (`none`, a distinct no-validation state, not an empty
collection), but the loader builder still wraps that absence in a third
validation `DataLoader` (whose `dataset` field is `none`) instead of
producing only two handles. -/
theorem val_absent_dataset_level_spec (P : ℕ) (testLabels : List ℤ)
    (batch nw : ℕ) (sh : Bool) (rs : Bool) (perm : List ℕ) (r : LoadersRet)
    (h : get_cifar100_loaders (.ok (P, testLabels)) batch nw 0 sh "default" rs perm = .ok r) :
    get_cifar100_dataset P 0 perm = .ok (List.range P, none) ∧
    r.valLoader.dataset = none := by
  have hds : get_cifar100_dataset P 0 perm = .ok (List.range P, none) := by
    unfold get_cifar100_dataset
    rw [if_neg (lt_irrefl 0)]
  refine ⟨hds, ?_⟩
  unfold get_cifar100_loaders at h
  rw [if_pos rfl] at h
  obtain ⟨x, hx, hk⟩ := except_bind_ok h
  have hx2 : x = ((List.range P, none), testLabels) := by
    dsimp only [Except.bind] at hx
    rw [hds] at hx
    dsimp only [Except.map] at hx
    injection hx with h5
    exact h5.symm
  subst hx2
  dsimp only at hk
  cases rs with
  | false =>
    rw [if_neg (by simp)] at hk
    injection hk with h4
    rw [← h4]
    rfl
  | true =>
    rw [if_pos rfl] at hk
    injection hk with h4
    rw [← h4]
    rfl

/-- Witness for the amended C2 at a pool of size 2. -/
theorem val_absent_dataset_level_spec_witness :
    get_cifar100_loaders (.ok (2, [5])) 1 0 0 false "default" false [0, 1] =
      .ok (.three ⟨[0, 1], 1, false, 0, true⟩ ⟨none, 1, false, 0, true⟩
        ⟨[5], 1, false, 0, true⟩) ∧
    (get_cifar100_dataset 2 0 [0, 1] = .ok (List.range 2, none) ∧
    (LoadersRet.three ⟨[0, 1], 1, false, 0, true⟩ ⟨none, 1, false, 0, true⟩
        ⟨[5], 1, false, 0, true⟩).valLoader.dataset = none) :=
  ⟨by decide, val_absent_dataset_level_spec 2 [5] 1 0 false false [0, 1] _ (by decide)⟩

/-- C8: when `return_steps` is requested, the builder returns
`steps_per_epoch = len(train_subset) // batch_size`, computed from the
post-split train subset, whose length is `P - ⌊P * v⌋`. -/
theorem steps_per_epoch_from_train_subset (P : ℕ) (testLabels : List ℤ)
    (batch nw : ℕ) (v : ℚ) (sh : Bool) (perm : List ℕ)
    (hv0 : 0 < v) (hv1 : v < 1) (hlen : perm.length = P) (_hb : 0 < batch) :
    ∃ t va te, get_cifar100_loaders (.ok (P, testLabels)) batch nw v sh "default" true perm =
        .ok (.four t va te (t.dataset.length / batch)) ∧
      t.dataset.length = P - (⌊(P : ℚ) * v⌋).toNat := by
  have hq0 : (0 : ℚ) ≤ (P : ℚ) * v := mul_nonneg (by positivity) hv0.le
  have h0 : (0 : ℤ) ≤ ⌊(P : ℚ) * v⌋ := Int.floor_nonneg.mpr hq0
  have hP : ⌊(P : ℚ) * v⌋ ≤ (P : ℤ) := floor_mul_le P v hv1.le
  refine ⟨⟨perm.take ((P : ℤ) - ⌊(P : ℚ) * v⌋).toNat, batch, sh, nw, true⟩,
    ⟨some (perm.drop ((P : ℤ) - ⌊(P : ℚ) * v⌋).toNat), batch, sh, nw, true⟩,
    ⟨testLabels, batch, false, nw, true⟩, ?_, ?_⟩
  · unfold get_cifar100_loaders
    rw [if_pos rfl]
    dsimp only [Except.bind]
    rw [split_core_pos P v perm hv0 hv1.le hlen]
    rfl
  · dsimp only
    rw [List.length_take, hlen]
    omega

/-- Witness for C8: the spec's scenario — pool 100, `val_size = 1/10` (train
subset length 90), `batch_size = 4` — yields `steps_per_epoch = 22`. -/
theorem steps_per_epoch_from_train_subset_witness :
    (0 : ℚ) < 1/10 ∧ (1/10 : ℚ) < 1 ∧ (List.range 100).length = 100 ∧ (0 : ℕ) < 4 ∧
    (∃ t va te,
      get_cifar100_loaders (.ok (100, [7])) 4 0 (1/10) true "default" true (List.range 100) =
        .ok (.four t va te (t.dataset.length / 4)) ∧
      t.dataset.length = 100 - (⌊((100 : ℕ) : ℚ) * (1/10)⌋).toNat) ∧
    (100 - (⌊((100 : ℕ) : ℚ) * (1/10)⌋).toNat) / 4 = 22 :=
  ⟨by norm_num, by norm_num, by simp, by norm_num,
    steps_per_epoch_from_train_subset 100 [7] 4 0 (1/10) true (List.range 100)
      (by norm_num) (by norm_num) (by simp) (by norm_num),
    by norm_num
       decide⟩

/-! ## Claims about item access and archive decoding (C10, C7, C6) -/

/-- C10: for every valid index, item access returns the stored integer label
unchanged and independently of the transform; the caller-supplied transform is
applied only to the image, and with no transform the image is the converted
stored array itself. -/
theorem getitem_label_passthrough (ds : CIFAR100) (i : ℕ) (h : i < ds.labels.length) :
    (ds.getItem i).2 = ds.labels.get ⟨i, h⟩ ∧
    (∀ t, ((CIFAR100.mk ds.train ds.data ds.labels t).getItem i).2 = ds.labels.get ⟨i, h⟩) ∧
    ((CIFAR100.mk ds.train ds.data ds.labels none).getItem i).1 =
      Image.fromarray (ds.data.getD i []) ∧
    (∀ f, ((CIFAR100.mk ds.train ds.data ds.labels (some f)).getItem i).1 =
      f (Image.fromarray (ds.data.getD i []))) := by
  have hL : ds.labels.getD i 0 = ds.labels.get ⟨i, h⟩ := by
    rw [List.getD_eq_getElem _ _ h, List.get_eq_getElem]
  refine ⟨?_, ?_, ?_, ?_⟩
  · unfold CIFAR100.getItem
    cases ds.transform <;> exact hL
  · intro t
    cases t with
    | none =>
      simp only [CIFAR100.getItem]
      exact hL
    | some f =>
      simp only [CIFAR100.getItem]
      exact hL
  · simp [CIFAR100.getItem]
  · intro f
    simp [CIFAR100.getItem]

/-- Witness for C10 on a one-element dataset. -/
theorem getitem_label_passthrough_witness :
    0 < ([(9 : ℤ)]).length ∧
    (((CIFAR100.mk true [[[[1]]]] [9] none).getItem 0).2 = ([(9 : ℤ)]).get ⟨0, by decide⟩ ∧
    (∀ t, ((CIFAR100.mk true [[[[1]]]] [9] t).getItem 0).2 = ([(9 : ℤ)]).get ⟨0, by decide⟩) ∧
    ((CIFAR100.mk true [[[[1]]]] [9] none).getItem 0).1 =
      Image.fromarray (([[[[1]]]] : List (List (List (List ℕ)))).getD 0 []) ∧
    (∀ f, ((CIFAR100.mk true [[[[1]]]] [9] (some f)).getItem 0).1 =
      f (Image.fromarray (([[[[1]]]] : List (List (List (List ℕ)))).getD 0 [])))) :=
  ⟨by decide, getitem_label_passthrough (CIFAR100.mk true [[[[1]]]] [9] none) 0 (by decide)⟩

lemma decodeImages_length (buffer : List ℕ) (N : ℕ) (h : buffer.length = N * 3072) :
    (decodeImages buffer).length = N := by
  unfold decodeImages
  rw [List.length_map]
  exact chunkList_length 3072 (by norm_num) N buffer h

/-- C7: the Archive Reader performs no validation of the image count against
the label count.  An archive whose buffer decodes to 2 images but whose label
sequence has length 1 is loaded without any error — the reader returns the
mismatched data instead of failing with `CorruptArchive`. -/
theorem mismatched_label_count_not_detected :
    load_data ⟨List.range 6144, [7]⟩ = .ok (decodeImages (List.range 6144), [7]) ∧
    (decodeImages (List.range 6144)).length = 2 ∧ ([(7 : ℤ)]).length = 1 := by
  refine ⟨?_, decodeImages_length _ 2 (by simp), rfl⟩
  unfold load_data
  rw [if_neg (by simp)]

lemma chunkList_getD_length {α : Type} (k : ℕ) (hk : 0 < k) (n : ℕ) (l : List α)
    (hlen : l.length = n * k) (i : ℕ) (hi : i < n) :
    ((chunkList k l).getD i []).length = k := by
  rw [chunkList_getD k hk i n l hlen hi]
  rw [List.length_take, List.length_drop, hlen]
  have h3 : (i + 1) * k ≤ n * k := Nat.mul_le_mul_right k hi
  have h4 : (i + 1) * k = i * k + k := by ring
  omega

lemma getD_range_lt (n i : ℕ) (h : i < n) : (List.range n).getD i 0 = i := by
  rw [List.getD_eq_getElem _ _ (by simpa using h)]
  exact List.getElem_range _ _

lemma transposeHWC_getD (img : List (List (List ℕ))) (h w : ℕ) (hh : h < 32) (hw : w < 32) :
    ((transposeHWC img).getD h []).getD w [] =
      img.map fun ch => (ch.getD h []).getD w 0 := by
  unfold transposeHWC
  rw [getD_map_lt _ (List.range 32) h (by simpa using hh) [] 0]
  rw [getD_range_lt 32 h hh]
  rw [getD_map_lt _ (List.range 32) w (by simpa using hw) [] 0]
  rw [getD_range_lt 32 w hw]

lemma decodeImages_pixel (buffer : List ℕ) (N : ℕ) (hlen : buffer.length = N * 3072)
    (i h w c : ℕ) (hi : i < N) (hh : h < 32) (hw : w < 32) (hc : c < 3) :
    ((((decodeImages buffer).getD i []).getD h []).getD w []).getD c 0 =
      buffer.getD (i * 3072 + c * 1024 + h * 32 + w) 0 := by
  have hlc : (chunkList 3072 buffer).length = N :=
    chunkList_length 3072 (by norm_num) N buffer hlen
  unfold decodeImages
  rw [getD_map_lt _ (chunkList 3072 buffer) i (by rw [hlc]; exact hi) [] []]
  rw [chunkList_getD 3072 (by norm_num) i N buffer hlen hi]
  have hib : ((buffer.drop (i * 3072)).take 3072).length = 3072 := by
    rw [List.length_take, List.length_drop, hlen]
    have h3 : (i + 1) * 3072 ≤ N * 3072 := Nat.mul_le_mul_right 3072 hi
    have h4 : (i + 1) * 3072 = i * 3072 + 3072 := by ring
    omega
  rw [transposeHWC_getD _ h w hh hw]
  rw [List.map_map]
  have hlc2 : (chunkList 1024 ((buffer.drop (i * 3072)).take 3072)).length = 3 :=
    chunkList_length 1024 (by norm_num) 3 _ (by rw [hib])
  rw [getD_map_lt _ (chunkList 1024 ((buffer.drop (i * 3072)).take 3072)) c
    (by rw [hlc2]; exact hc) 0 []]
  rw [chunkList_getD 1024 (by norm_num) c 3 _ (by rw [hib]) hc]
  dsimp only [Function.comp]
  have hcb : c * 1024 + 1024 ≤ 3072 := by
    have h5 : (c + 1) * 1024 ≤ 3 * 1024 := Nat.mul_le_mul_right 1024 hc
    have h6 : (c + 1) * 1024 = c * 1024 + 1024 := by ring
    omega
  have hch : ((((buffer.drop (i * 3072)).take 3072).drop (c * 1024)).take 1024).length
      = 1024 := by
    rw [List.length_take, List.length_drop, hib]
    omega
  rw [chunkList_getD 32 (by norm_num) h 32 _ (by rw [hch]) hh]
  have hhb : h * 32 + 32 ≤ 1024 := by
    have h5 : (h + 1) * 32 ≤ 32 * 32 := Nat.mul_le_mul_right 32 hh
    have h6 : (h + 1) * 32 = h * 32 + 32 := by ring
    omega
  rw [getD_take_drop _ (h * 32) 32 w hw (by rw [hch]; omega) 0]
  rw [getD_take_drop _ (c * 1024) 1024 (h * 32 + w) (by omega) (by rw [hib]; omega) 0]
  rw [getD_take_drop buffer (i * 3072) 3072 (c * 1024 + (h * 32 + w)) (by omega)
    (by rw [hlen]
        have h3 : (i + 1) * 3072 ≤ N * 3072 := Nat.mul_le_mul_right 3072 hi
        have h4 : (i + 1) * 3072 = i * 3072 + 3072 := by ring
        omega) 0]
  have h7 : i * 3072 + (c * 1024 + (h * 32 + w)) = i * 3072 + c * 1024 + h * 32 + w := by
    omega
  rw [h7]

/-- C6: decoding an archive whose byte buffer encodes `N` images in
channel-first (3, 32, 32) order produces a materialized dataset of length `N`
in which the byte at channel-last position (h, w, c) of image `i` is the byte
at channel-first position (c, h, w) of the `i`-th stored image — the flat
buffer offset `i * 3072 + c * 1024 + h * 32 + w` — and item access pairs image
`i` with the `i`-th stored label. -/
theorem decode_channel_last_round_trip (buffer : List ℕ) (labels : List ℤ) (N : ℕ)
    (hlen : buffer.length = N * 3072) :
    ∃ imgs, load_data ⟨buffer, labels⟩ = .ok (imgs, labels) ∧
      imgs.length = N ∧
      (∀ i h w c, i < N → h < 32 → w < 32 → c < 3 →
        datasetPixel imgs i h w c = buffer.getD (i * 3072 + c * 1024 + h * 32 + w) 0) ∧
      (∀ i, ((CIFAR100.mk true imgs labels none).getItem i).2 = labels.getD i 0) := by
  refine ⟨decodeImages buffer, ?_, decodeImages_length buffer N hlen, ?_, ?_⟩
  · unfold load_data
    rw [if_neg (by rw [hlen]; simp [Nat.mul_mod_left])]
  · intro i h w c hi hh hw hc
    exact decodeImages_pixel buffer N hlen i h w c hi hh hw hc
  · intro i
    simp [CIFAR100.getItem]

/-- Witness for C6 on a synthetic one-image archive with a known byte
pattern. -/
theorem decode_channel_last_round_trip_witness :
    (List.range 3072).length = 1 * 3072 ∧
    (∃ imgs, load_data ⟨List.range 3072, [5]⟩ = .ok (imgs, [5]) ∧
      imgs.length = 1 ∧
      (∀ i h w c, i < 1 → h < 32 → w < 32 → c < 3 →
        datasetPixel imgs i h w c =
          (List.range 3072).getD (i * 3072 + c * 1024 + h * 32 + w) 0) ∧
      (∀ i, ((CIFAR100.mk true imgs [5] none).getItem i).2 = ([(5 : ℤ)]).getD i 0)) :=
  ⟨by simp, decode_channel_last_round_trip (List.range 3072) [5] 1 (by simp)⟩
